import Mathlib

/-
Verification of the Theia adapter modules:
  - the bunyan logger server and its log-level CLI contribution
    (packages/core/src/node/bunyan-logger-server.ts),
  - the editorconfig document watcher (packages/editorconfig),
  - the quick-open file search adapter (packages/file-search).
Each TypeScript function is embedded as an executable Lean definition; the
theorems below settle the spec's claims about them.
-/

namespace Theia

/-! ## Log levels

The numeric level constants live in `packages/core/src/common/logger.ts`,
which is not among the supplied files; only its client, the bunyan logger
server, is. -/

/-- Modelled from the spec: the fixed ordered enumeration of Theia log
levels (spec section 4.1).  `common/logger.ts` is not among the supplied
files; the numeric codes are chosen equal to the backend's, because
`makeLoggerOptions` passes `defaultLogLevel` directly as a backend level and
the spec requires children to inherit the root's configuration. -/
def LogLevel.TRACE : Int := 10

/-- Modelled from the spec: see `LogLevel.TRACE`. -/
def LogLevel.DEBUG : Int := 20

/-- Modelled from the spec: see `LogLevel.TRACE`. -/
def LogLevel.INFO : Int := 30

/-- Modelled from the spec: see `LogLevel.TRACE`. -/
def LogLevel.WARN : Int := 40

/-- Modelled from the spec: see `LogLevel.TRACE`. -/
def LogLevel.ERROR : Int := 50

/-- Modelled from the spec: see `LogLevel.TRACE`. -/
def LogLevel.FATAL : Int := 60

/-- The fixed enumeration of valid Theia log level values. -/
def LogLevel.values : List Int :=
  [LogLevel.TRACE, LogLevel.DEBUG, LogLevel.INFO, LogLevel.WARN, LogLevel.ERROR, LogLevel.FATAL]

/-- Modelled from the spec: the backend severity constants of the bunyan
logging library (spec section 6, `log(severityInt, message, args)`); bunyan
is an external library, not among the supplied files. -/
def Bunyan.TRACE : Int := 10

/-- Modelled from the spec: see `Bunyan.TRACE`. -/
def Bunyan.DEBUG : Int := 20

/-- Modelled from the spec: see `Bunyan.TRACE`. -/
def Bunyan.INFO : Int := 30

/-- Modelled from the spec: see `Bunyan.TRACE`. -/
def Bunyan.WARN : Int := 40

/-- Modelled from the spec: see `Bunyan.TRACE`. -/
def Bunyan.ERROR : Int := 50

/-- Modelled from the spec: see `Bunyan.TRACE`. -/
def Bunyan.FATAL : Int := 60

/-- Modelled from the spec: `LogLevel.fromString`, from the missing
`common/logger.ts`.  The CLI option's choices are the level names (spec
section 6); the repository's own tests feed it the lowercase names
("debug", "info", "fatal", ...) and expect "potato" to be refused. -/
def LogLevel.fromString (s : String) : Option Int :=
  if s = "trace" then some LogLevel.TRACE
  else if s = "debug" then some LogLevel.DEBUG
  else if s = "info" then some LogLevel.INFO
  else if s = "warn" then some LogLevel.WARN
  else if s = "error" then some LogLevel.ERROR
  else if s = "fatal" then some LogLevel.FATAL
  else none

/-- Modelled from the spec: `rootLoggerName` from the missing
`common/logger.ts` ("Root logger created once at startup", spec section 3);
the concrete string is immaterial to every claim. -/
def rootLoggerName : String := "root"

/-! ## LogLevelCliContribution (bunyan-logger-server.ts, setArguments) -/

/-- The mutable state of `LogLevelCliContribution`: the per-logger level
mapping `logLevels` and `defaultLogLevel`. -/
structure LogLevelCliState where
  logLevels : List (String × Int)
  defaultLogLevel : Int
deriving DecidableEq, Repr

/-- The contribution's field initializers: `logLevels = {}`,
`defaultLogLevel = LogLevel.INFO`. -/
def initialCliState : LogLevelCliState :=
  { logLevels := [], defaultLogLevel := LogLevel.INFO }

/-- The two yargs arguments read by `setArguments`. -/
structure CliArgs where
  logLevelArg : Option String
  logLevelsFileArg : Option String

/-- Modelled from the spec: the parsed contents of a log-levels file, JSON
of shape `{ "default": levelName, "loggers": { name: levelName, ... } }`
(spec section 6).  `defaultEntry` is the value at key "default" when
present; `loggerEntries` the entries of the "loggers" object in key order. -/
structure LogLevelsFileData where
  defaultEntry : Option String
  loggerEntries : List (String × String)

/-- Modelled from the spec: the outcome of `fs.readFileSync` plus
`JSON.parse` on a file: a thrown error (unreadable file or malformed JSON)
with its message, or the parsed data. -/
inductive FileRead where
  | failure (msg : String)
  | ok (data : LogLevelsFileData)

/-- `readLogLevelString` of `setArguments`: convert a string to a level,
throw if invalid. -/
def readLogLevelString (levelStr : String) (errMessagePrefix : String) : Except String Int :=
  match LogLevel.fromString levelStr with
  | none => .error (errMessagePrefix ++ ": \"" ++ levelStr ++ "\".")
  | some level => .ok level

/-- Setting an assoc-list key, as assignment into a JavaScript object does:
replace in place when present, append otherwise. -/
def assocSet (xs : List (String × Int)) (k : String) (v : Int) : List (String × Int) :=
  match xs with
  | [] => [(k, v)]
  | (k0, v0) :: rest => if k0 = k then (k, v) :: rest else (k0, v0) :: assocSet rest k v

/-- The `for (const logger of Object.keys(loggers))` loop of `setArguments`:
each entry's level string is converted (throwing on an unknown name) and
written into `this.logLevels`. -/
def readLoggerEntries (filename : String) (logLevels : List (String × Int)) :
    List (String × String) → Except String (List (String × Int))
  | [] => .ok logLevels
  | (logger, levelStr) :: rest =>
      match readLogLevelString levelStr ("Unknown log level for logger " ++ logger ++ " in " ++ filename) with
      | .error e => .error e
      | .ok level => readLoggerEntries filename (assocSet logLevels logger level) rest

/-- `LogLevelCliContribution.setArguments`.  The file system is passed as a
function from file name to read outcome.  A thrown error aborts startup, so
the state is returned only on success; inside the file branch every throw
(read failure, malformed JSON, unknown level name) is caught and rewrapped
as "Error reading log level file ...", as the `try`/`catch` does. -/
def setArguments (self : LogLevelCliState) (fs : String → FileRead) (args : CliArgs) :
    Except String LogLevelCliState :=
  if args.logLevelArg.isSome ∧ args.logLevelsFileArg.isSome then
    .error "--log-level and --log-levels-file are mutually exclusive."
  else
    match (match args.logLevelArg with
      | none => Except.ok self
      | some levelStr =>
          match readLogLevelString levelStr "Unknown log level passed to --log-level" with
          | .error e => .error e
          | .ok level => .ok { self with defaultLogLevel := level }) with
    | .error e => .error e
    | .ok self1 =>
        match args.logLevelsFileArg with
        | none => .ok self1
        | some filename =>
            match (match fs filename with
              | .failure msg => Except.error msg
              | .ok data =>
                  match (match data.defaultEntry with
                    | none => Except.ok self1
                    | some s =>
                        match readLogLevelString s ("Unknown default log level in " ++ filename) with
                        | .error e => .error e
                        | .ok level => .ok { self1 with defaultLogLevel := level }) with
                  | .error e => .error e
                  | .ok self2 =>
                      match readLoggerEntries filename self2.logLevels data.loggerEntries with
                      | .error e => .error e
                      | .ok levels => .ok { self2 with logLevels := levels }) with
            | .error e => .error ("Error reading log level file " ++ filename ++ ": " ++ e)
            | .ok s => .ok s

/-! ## BunyanLoggerServer -/

/-- `BunyanLoggerServer.toBunyanLevel`: convert Theia's log levels to
bunyan's, defaulting to INFO. -/
def toBunyanLevel (logLevel : Int) : Int :=
  if logLevel = LogLevel.FATAL then Bunyan.FATAL
  else if logLevel = LogLevel.ERROR then Bunyan.ERROR
  else if logLevel = LogLevel.WARN then Bunyan.WARN
  else if logLevel = LogLevel.INFO then Bunyan.INFO
  else if logLevel = LogLevel.DEBUG then Bunyan.DEBUG
  else if logLevel = LogLevel.TRACE then Bunyan.TRACE
  else Bunyan.INFO

/-- `BunyanLoggerServer.toLogLevel`: convert bunyan's levels to Theia's,
defaulting to INFO. -/
def toLogLevel (bunyanLogLevel : Int) : Int :=
  if bunyanLogLevel = Bunyan.FATAL then LogLevel.FATAL
  else if bunyanLogLevel = Bunyan.ERROR then LogLevel.ERROR
  else if bunyanLogLevel = Bunyan.WARN then LogLevel.WARN
  else if bunyanLogLevel = Bunyan.INFO then LogLevel.INFO
  else if bunyanLogLevel = Bunyan.DEBUG then LogLevel.DEBUG
  else if bunyanLogLevel = Bunyan.TRACE then LogLevel.TRACE
  else LogLevel.INFO

/-- The server's mutable state: the name-keyed registry of loggers (each
bunyan logger reduced to its stored numeric level, the only state the
server reads back) and whether a client is registered via `setClient`. -/
structure BunyanLoggerServer where
  loggers : List (String × Int)
  client : Bool
deriving DecidableEq, Repr

/-- `makeLoggerOptions`, reduced to the `level` it computes: the
per-logger startup level converted via `toBunyanLevel` when the name is in
`cli.logLevels`, and otherwise `cli.defaultLogLevel` passed through
unconverted, exactly as the source does. -/
def makeLoggerOptionsLevel (cli : LogLevelCliState) (name : String) : Int :=
  match cli.logLevels.lookup name with
  | some level => toBunyanLevel level
  | none => cli.defaultLogLevel

/-- `init`: create the root logger. -/
def initServer (cli : LogLevelCliState) : BunyanLoggerServer :=
  { loggers := [(rootLoggerName, makeLoggerOptionsLevel cli rootLoggerName)], client := false }

/-- `BunyanLoggerServer.child`: reject the empty name, resolve as a no-op
for an existing name, otherwise create a child of the root logger with the
startup-configured level. -/
def child (s : BunyanLoggerServer) (cli : LogLevelCliState) (name : String) :
    Except String BunyanLoggerServer :=
  if name.length = 0 then
    .error "Can't create a logger with an empty name."
  else if (s.loggers.lookup name).isSome then
    .ok s
  else
    match s.loggers.lookup rootLoggerName with
    | none => .error "No root logger."
    | some _ => .ok { s with loggers := s.loggers ++ [(name, makeLoggerOptionsLevel cli name)] }

/-- `ILogLevelChangedEvent`. -/
structure ILogLevelChangedEvent where
  loggerName : String
  oldLogLevel : Int
  newLogLevel : Int
deriving DecidableEq, Repr

/-- The two possible recipients of a log-level-changed notification. -/
inductive Recipient where
  | client
  | watcher
deriving DecidableEq, Repr

/-- `BunyanLoggerServer.setLogLevel`: throw for an unknown name; no-op when
the level is unchanged; otherwise store the new level and notify the client
(when registered) and then the watcher, in that order.  The returned list
records the deliveries in order. -/
def setLogLevel (s : BunyanLoggerServer) (name : String) (logLevel : Int) :
    Except String (BunyanLoggerServer × List (Recipient × ILogLevelChangedEvent)) :=
  match s.loggers.lookup name with
  | none => .error ("No logger named " ++ name ++ ".")
  | some lvl =>
      let oldLogLevel := toLogLevel lvl
      if oldLogLevel = logLevel then .ok (s, [])
      else
        let changedEvent : ILogLevelChangedEvent :=
          { loggerName := name, oldLogLevel := oldLogLevel, newLogLevel := logLevel }
        .ok ({ s with loggers := assocSet s.loggers name (toBunyanLevel logLevel) },
          (if s.client then [(Recipient.client, changedEvent)] else [])
            ++ [(Recipient.watcher, changedEvent)])

/-- A thrown error leaves `this.loggers` as it was: the state seen by the
caller after `setLogLevel`, with the error case keeping the old state. -/
def trySetLogLevel (s : BunyanLoggerServer) (name : String) (logLevel : Int) :
    BunyanLoggerServer :=
  match setLogLevel s name logLevel with
  | .ok (s2, _) => s2
  | .error _ => s

/-- `BunyanLoggerServer.getLogLevel`: throw for an unknown name, otherwise
the stored bunyan level converted back via `toLogLevel`. -/
def getLogLevel (s : BunyanLoggerServer) (name : String) : Except String Int :=
  match s.loggers.lookup name with
  | none => .error ("No logger named " ++ name ++ ".")
  | some lvl => .ok (toLogLevel lvl)

/-- A call into the bunyan backend: the severity of the method invoked
(`trace` logs at TRACE, ..., `fatal` at FATAL) and the message. -/
structure BackendCall where
  severity : Int
  message : String
deriving DecidableEq, Repr

/-- The `switch (logLevel)` of `BunyanLoggerServer.log`: the backend method
invoked for each Theia level, `info` in the `default` branch. -/
def logSwitchSeverity (logLevel : Int) : Int :=
  if logLevel = LogLevel.TRACE then Bunyan.TRACE
  else if logLevel = LogLevel.DEBUG then Bunyan.DEBUG
  else if logLevel = LogLevel.INFO then Bunyan.INFO
  else if logLevel = LogLevel.WARN then Bunyan.WARN
  else if logLevel = LogLevel.ERROR then Bunyan.ERROR
  else if logLevel = LogLevel.FATAL then Bunyan.FATAL
  else Bunyan.INFO

/-- `BunyanLoggerServer.log`: throw for an unknown name, otherwise forward
the message to the backend method selected by the `switch` on `logLevel`,
with `info` as the `default` branch. -/
def log (s : BunyanLoggerServer) (name : String) (logLevel : Int) (message : String) :
    Except String BackendCall :=
  match s.loggers.lookup name with
  | none => .error ("No logger named " ++ name ++ ".")
  | some _ => .ok { severity := logSwitchSeverity logLevel, message := message }

/-! ## Valid levels and reachable server states -/

/-- A level value inside the fixed enumeration. -/
def ValidLevel (n : Int) : Prop := n ∈ LogLevel.values

instance (n : Int) : Decidable (ValidLevel n) := by
  unfold ValidLevel
  infer_instance

/-- A CLI state whose default and per-logger levels are all genuine levels:
`setArguments` only ever stores values produced by `LogLevel.fromString`. -/
def ValidCli (cli : LogLevelCliState) : Prop :=
  ValidLevel cli.defaultLogLevel ∧ ∀ p ∈ cli.logLevels, ValidLevel p.2

instance (cli : LogLevelCliState) : Decidable (ValidCli cli) := by
  unfold ValidCli
  infer_instance

/-- The server states reachable through the server's own operations from
startup: logger creation, level changes and client registration. -/
inductive Reachable (cli : LogLevelCliState) : BunyanLoggerServer → Prop where
  | init : Reachable cli (initServer cli)
  | childStep {s s2 : BunyanLoggerServer} {n : String} :
      Reachable cli s → child s cli n = .ok s2 → Reachable cli s2
  | setStep {s : BunyanLoggerServer} (n : String) (l : Int) :
      Reachable cli s → Reachable cli (trySetLogLevel s n l)
  | clientStep {s : BunyanLoggerServer} (b : Bool) :
      Reachable cli s → Reachable cli { s with client := b }

/-! ## Support lemmas -/

lemma lookup_append_of_eq_none {α : Type} [DecidableEq α] {β : Type}
    (xs ys : List (α × β)) (k : α) (h : xs.lookup k = none) :
    (xs ++ ys).lookup k = ys.lookup k := by
  induction xs with
  | nil => rfl
  | cons p rest ih =>
      rw [List.cons_append]
      by_cases hk : k = p.1
      · have hb : (k == p.1) = true := beq_iff_eq.mpr hk
        simp [List.lookup, hb] at h
      · have hb : (k == p.1) = false := beq_eq_false_iff_ne.mpr hk
        simp only [List.lookup, hb] at h ⊢
        exact ih h

lemma mem_of_lookup_eq_some {α : Type} [DecidableEq α] {β : Type}
    {xs : List (α × β)} {k : α} {v : β} (h : xs.lookup k = some v) : (k, v) ∈ xs := by
  induction xs with
  | nil => simp [List.lookup] at h
  | cons p rest ih =>
      by_cases hk : k = p.1
      · have hb : (k == p.1) = true := beq_iff_eq.mpr hk
        simp only [List.lookup, hb] at h
        cases h
        rw [hk]
        exact List.mem_cons_self _ _
      · have hb : (k == p.1) = false := beq_eq_false_iff_ne.mpr hk
        simp only [List.lookup, hb] at h
        exact List.mem_cons_of_mem _ (ih h)

lemma assocSet_lookup_ne (xs : List (String × Int)) (k k' : String) (v : Int)
    (h : k' ≠ k) : (assocSet xs k v).lookup k' = xs.lookup k' := by
  have hb : (k' == k) = false := beq_eq_false_iff_ne.mpr h
  induction xs with
  | nil => simp [assocSet, List.lookup, hb]
  | cons p rest ih =>
      by_cases hk : p.1 = k
      · simp only [assocSet, if_pos hk]
        have hb' : (k' == p.1) = false := beq_eq_false_iff_ne.mpr (by rw [hk]; exact h)
        simp [List.lookup, hb, hb']
      · simp only [assocSet, if_neg hk]
        simp only [List.lookup]
        cases hkk : k' == p.1 with
        | true => rfl
        | false => exact ih

lemma string_eq_empty_of_length_eq_zero {s : String} (h : s.length = 0) : s = "" := by
  cases s with
  | mk data =>
      cases data with
      | nil => rfl
      | cons c cs => simp [String.length] at h

/-- Reachable registries never key the empty name: `child` rejects it and
`setLogLevel` only overwrites existing keys. -/
lemma no_empty_name_reachable {cli : LogLevelCliState} {s : BunyanLoggerServer}
    (hr : Reachable cli s) : s.loggers.lookup "" = none := by
  induction hr with
  | init => simp [initServer, rootLoggerName, List.lookup]
  | childStep hr hok ih =>
      rename_i s s2 n
      unfold child at hok
      by_cases h0 : n.length = 0
      · rw [if_pos h0] at hok
        cases hok
      · rw [if_neg h0] at hok
        by_cases hsome : (s.loggers.lookup n).isSome
        · rw [if_pos hsome] at hok
          cases hok
          exact ih
        · rw [if_neg hsome] at hok
          cases hroot : s.loggers.lookup rootLoggerName with
          | none => rw [hroot] at hok; cases hok
          | some _ =>
              rw [hroot] at hok
              cases hok
              rw [lookup_append_of_eq_none _ _ _ ih]
              have hne : "" ≠ n := by
                intro habs
                exact h0 (by rw [← habs]; rfl)
              have hb : ("" == n) = false := beq_eq_false_iff_ne.mpr hne
              simp [List.lookup, hb]
  | setStep n l hr ih =>
      rename_i s'
      unfold trySetLogLevel setLogLevel
      cases hl : s'.loggers.lookup n with
      | none =>
          simp only [hl]
          exact ih
      | some lvl =>
          simp only [hl]
          by_cases heq : toLogLevel lvl = l
          · rw [if_pos heq]
            exact ih
          · rw [if_neg heq]
            have hne : ("" : String) ≠ n := by
              intro habs
              rw [← habs, ih] at hl
              cases hl
            exact (assocSet_lookup_ne _ _ _ _ hne).trans ih
  | clientStep b hr ih => exact ih

lemma valid_level_cases {l : Int} (h : ValidLevel l) :
    l = LogLevel.TRACE ∨ l = LogLevel.DEBUG ∨ l = LogLevel.INFO ∨ l = LogLevel.WARN ∨
      l = LogLevel.ERROR ∨ l = LogLevel.FATAL := by
  simpa [ValidLevel, LogLevel.values] using h

lemma toLogLevel_of_valid {l : Int} (h : ValidLevel l) : toLogLevel l = l := by
  rcases valid_level_cases h with h | h | h | h | h | h <;> subst h <;> decide

lemma toLogLevel_toBunyanLevel_of_valid {l : Int} (h : ValidLevel l) :
    toLogLevel (toBunyanLevel l) = l := by
  rcases valid_level_cases h with h | h | h | h | h | h <;> subst h <;> decide

lemma logSwitchSeverity_eq (l : Int) :
    logSwitchSeverity l = if l ∈ LogLevel.values then toBunyanLevel l else Bunyan.INFO := by
  by_cases h1 : l = LogLevel.TRACE
  · subst h1; decide
  by_cases h2 : l = LogLevel.DEBUG
  · subst h2; decide
  by_cases h3 : l = LogLevel.INFO
  · subst h3; decide
  by_cases h4 : l = LogLevel.WARN
  · subst h4; decide
  by_cases h5 : l = LogLevel.ERROR
  · subst h5; decide
  by_cases h6 : l = LogLevel.FATAL
  · subst h6; decide
  have hmem : l ∉ LogLevel.values := by
    simp [LogLevel.values, h1, h2, h3, h4, h5, h6]
  simp [logSwitchSeverity, h1, h2, h3, h4, h5, h6, hmem]

/-! ## Claim theorems: the logger server -/

/-- Claim C1: for every registered logger, `setLogLevel` with the logger's
current level (the value `getLogLevel` reports) fires no notification, and
with a different level stores the converted level and fires exactly one
notification carrying the logger name and the correct old and new values,
delivered to the registered client (when there is one) first and then to
the local watcher. -/
theorem setLogLevel_change_notification (s : BunyanLoggerServer) (name : String)
    (cur logLevel : Int) (h : getLogLevel s name = Except.ok cur) :
    setLogLevel s name logLevel =
      Except.ok (if cur = logLevel then (s, ([] : List (Recipient × ILogLevelChangedEvent)))
        else ({ s with loggers := assocSet s.loggers name (toBunyanLevel logLevel) },
          (if s.client then
              [(Recipient.client,
                { loggerName := name, oldLogLevel := cur, newLogLevel := logLevel })]
            else [])
            ++ [(Recipient.watcher,
              { loggerName := name, oldLogLevel := cur, newLogLevel := logLevel })])) := by
  cases hl : s.loggers.lookup name with
  | none => simp [getLogLevel, hl] at h
  | some lvl =>
      simp only [getLogLevel, hl, Except.ok.injEq] at h
      subst h
      simp only [setLogLevel, hl]
      split <;> rfl

/-- Witness for C1: on the startup server (root at INFO), setting the root
logger to DEBUG stores the new level and notifies only the watcher (no
client is registered), with old level INFO and new level DEBUG; setting it
to INFO again is a silent no-op. -/
theorem setLogLevel_change_notification_witness :
    setLogLevel (initServer initialCliState) "root" LogLevel.DEBUG =
      Except.ok ({ loggers := [("root", 20)], client := false },
        [(Recipient.watcher, { loggerName := "root", oldLogLevel := 30, newLogLevel := 20 })]) ∧
    setLogLevel (initServer initialCliState) "root" LogLevel.INFO =
      Except.ok (initServer initialCliState, []) := by
  constructor
  · have h := setLogLevel_change_notification (initServer initialCliState) "root"
      LogLevel.INFO LogLevel.DEBUG rfl
    rw [h]
    rfl
  · have h := setLogLevel_change_notification (initServer initialCliState) "root"
      LogLevel.INFO LogLevel.INFO rfl
    rw [h]
    rfl

/-- Claim C2: for a name absent from the registry, `getLogLevel`,
`setLogLevel` and `log` all throw the synchronous "No logger named ..."
error naming the missing logger, and the registry is left unchanged
(`getLogLevel` and `log` never write to it; the throwing `setLogLevel`
leaves the caller's state as it was). -/
theorem unknown_logger_errors (s : BunyanLoggerServer) (name : String)
    (logLevel : Int) (message : String) (h : s.loggers.lookup name = none) :
    getLogLevel s name = Except.error ("No logger named " ++ name ++ ".") ∧
    setLogLevel s name logLevel = Except.error ("No logger named " ++ name ++ ".") ∧
    log s name logLevel message = Except.error ("No logger named " ++ name ++ ".") ∧
    trySetLogLevel s name logLevel = s := by
  refine ⟨?_, ?_, ?_, ?_⟩ <;> simp [getLogLevel, setLogLevel, log, trySetLogLevel, h]

/-- Witness for C2: on the startup server, the name "nosuch" is rejected by
all three operations and the state is untouched. -/
theorem unknown_logger_errors_witness :
    getLogLevel (initServer initialCliState) "nosuch" =
      Except.error "No logger named nosuch." ∧
    trySetLogLevel (initServer initialCliState) "nosuch" LogLevel.DEBUG =
      initServer initialCliState := by
  have h := unknown_logger_errors (initServer initialCliState) "nosuch"
    LogLevel.DEBUG "boom" (by decide)
  exact ⟨h.1, h.2.2.2⟩

/-- Claim C7: for a registered logger, `log` forwards the message at the
mapped backend severity for each of the six enumerated levels, and at INFO
severity for every level value outside the enumeration. -/
theorem log_severity_mapping (s : BunyanLoggerServer) (name : String)
    (logLevel : Int) (message : String) (h : (s.loggers.lookup name).isSome) :
    log s name logLevel message =
      Except.ok { severity := if logLevel ∈ LogLevel.values then toBunyanLevel logLevel
                    else Bunyan.INFO,
                  message := message } := by
  obtain ⟨lvl, hl⟩ := Option.isSome_iff_exists.mp h
  simp [log, hl, logSwitchSeverity_eq]

/-- Witness for C7: on the startup server, level 999 (outside the
enumeration) is logged at INFO severity 30; level 50 (ERROR) at severity 50. -/
theorem log_severity_mapping_witness :
    log (initServer initialCliState) "root" 999 "m" =
      Except.ok { severity := 30, message := "m" } ∧
    log (initServer initialCliState) "root" 50 "m" =
      Except.ok { severity := 50, message := "m" } := by
  constructor
  · have h := log_severity_mapping (initServer initialCliState) "root" 999 "m" (by decide)
    rw [h]
    rfl
  · have h := log_severity_mapping (initServer initialCliState) "root" 50 "m" (by decide)
    rw [h]
    rfl

/-- Claim C8: on any server state reachable through the server's
operations, `child` with the empty name rejects with an error, and `child`
for a name already in the registry resolves as a no-op that leaves the
registry unchanged. -/
theorem child_empty_and_existing (cli : LogLevelCliState) (s : BunyanLoggerServer)
    (name : String) (hr : Reachable cli s) (h : (s.loggers.lookup name).isSome) :
    child s cli "" = Except.error "Can't create a logger with an empty name." ∧
    child s cli name = Except.ok s := by
  constructor
  · rfl
  · have hno := no_empty_name_reachable hr
    have hne : ¬ name.length = 0 := by
      intro habs
      rw [string_eq_empty_of_length_eq_zero habs] at h
      rw [hno] at h
      cases h
    unfold child
    rw [if_neg hne, if_pos h]

/-- Witness for C8: the startup server itself is reachable and has the root
logger; `child` of the empty name errors and `child "root"` is a no-op. -/
theorem child_empty_and_existing_witness :
    child (initServer initialCliState) initialCliState "" =
      Except.error "Can't create a logger with an empty name." ∧
    child (initServer initialCliState) initialCliState "root" =
      Except.ok (initServer initialCliState) := by
  exact child_empty_and_existing initialCliState (initServer initialCliState) "root"
    Reachable.init (by decide)

/-! ## Claim theorems: startup argument parsing (C5) -/

lemma readLoggerEntries_ok (filename : String) (acc : List (String × Int))
    (entries : List (String × String))
    (h : ∀ e ∈ entries, (LogLevel.fromString e.2).isSome) :
    ∃ m, readLoggerEntries filename acc entries = Except.ok m := by
  induction entries generalizing acc with
  | nil => exact ⟨acc, rfl⟩
  | cons e rest ih =>
      obtain ⟨level, hl⟩ := Option.isSome_iff_exists.mp (h e (List.mem_cons_self _ _))
      obtain ⟨m, hm⟩ := ih (assocSet acc e.1 level) (fun e' he' => h e' (List.mem_cons_of_mem _ he'))
      refine ⟨m, ?_⟩
      cases e with
      | mk logger levelStr =>
          simp only [readLoggerEntries, readLogLevelString, hl]
          exact hm

/-- Claim C5: `--log-level` and `--log-levels-file` together throw the
mutual-exclusion error; a valid level alone succeeds and sets the default; a
readable file whose entries all parse succeeds alone; with neither flag the
state is untouched and the initial default is INFO; an unknown level string
throws naming it; an unreadable or malformed file throws the descriptive
"Error reading log level file" message. -/
theorem setArguments_flag_handling :
    (∀ (self : LogLevelCliState) (fs : String → FileRead) (a b : String),
        setArguments self fs ⟨some a, some b⟩ =
          Except.error "--log-level and --log-levels-file are mutually exclusive.") ∧
    (∀ (self : LogLevelCliState) (fs : String → FileRead) (levelStr : String) (level : Int),
        LogLevel.fromString levelStr = some level →
        setArguments self fs ⟨some levelStr, none⟩ =
          Except.ok { self with defaultLogLevel := level }) ∧
    (∀ (fs : String → FileRead) (filename : String) (data : LogLevelsFileData),
        fs filename = .ok data →
        (∀ s, data.defaultEntry = some s → (LogLevel.fromString s).isSome) →
        (∀ e ∈ data.loggerEntries, (LogLevel.fromString e.2).isSome) →
        ∃ cli, setArguments initialCliState fs ⟨none, some filename⟩ = Except.ok cli) ∧
    (∀ (self : LogLevelCliState) (fs : String → FileRead),
        setArguments self fs ⟨none, none⟩ = Except.ok self) ∧
    initialCliState.defaultLogLevel = LogLevel.INFO ∧
    (∀ (self : LogLevelCliState) (fs : String → FileRead) (levelStr : String),
        LogLevel.fromString levelStr = none →
        setArguments self fs ⟨some levelStr, none⟩ =
          Except.error ("Unknown log level passed to --log-level: \"" ++ levelStr ++ "\".")) ∧
    (∀ (self : LogLevelCliState) (fs : String → FileRead) (filename msg : String),
        fs filename = .failure msg →
        setArguments self fs ⟨none, some filename⟩ =
          Except.error ("Error reading log level file " ++ filename ++ ": " ++ msg)) := by
  refine ⟨?_, ?_, ?_, ?_, rfl, ?_, ?_⟩
  · intro self fs a b
    rfl
  · intro self fs levelStr level h
    simp [setArguments, readLogLevelString, h]
  · intro fs filename data hfs hdef hentries
    obtain ⟨self2, hself2⟩ :
        ∃ self2, (match data.defaultEntry with
          | none => Except.ok initialCliState
          | some s =>
              match readLogLevelString s ("Unknown default log level in " ++ filename) with
              | .error e => .error e
              | .ok level =>
                  .ok { initialCliState with defaultLogLevel := level }) = Except.ok self2 := by
      cases hde : data.defaultEntry with
      | none => exact ⟨initialCliState, rfl⟩
      | some s =>
          obtain ⟨level, hl⟩ := Option.isSome_iff_exists.mp (hdef s hde)
          refine ⟨{ initialCliState with defaultLogLevel := level }, ?_⟩
          simp [readLogLevelString, hl]
    obtain ⟨m, hm⟩ := readLoggerEntries_ok filename self2.logLevels data.loggerEntries hentries
    refine ⟨{ self2 with logLevels := m }, ?_⟩
    simp only [setArguments, hfs, hself2, hm]
    rfl
  · intro self fs
    rfl
  · intro self fs levelStr h
    simp [setArguments, readLogLevelString, h]
  · intro self fs filename msg h
    simp [setArguments, h]

/-! ## Claim theorems: child loggers inherit the startup configuration (C6) -/

/-- The startup server with the root logger's level changed to DEBUG via
`setLogLevel`: a state in which a logger's current level differs from the
startup configuration. -/
def demoOverriddenServer : BunyanLoggerServer :=
  trySetLogLevel (initServer initialCliState) "root" LogLevel.DEBUG

/-- Counterexample to claim C6 as stated: with an empty startup mapping and
default level INFO, after `setLogLevel` has moved the root logger to DEBUG,
`child "root"` still succeeds (as a no-op), yet `getLogLevel "root"`
returns DEBUG, not the configured default INFO. -/
theorem child_inherits_counterexample :
    child demoOverriddenServer initialCliState "root" = Except.ok demoOverriddenServer ∧
    getLogLevel demoOverriddenServer "root" = Except.ok LogLevel.DEBUG ∧
    initialCliState.logLevels.lookup "root" = none ∧
    initialCliState.defaultLogLevel = LogLevel.INFO ∧
    LogLevel.DEBUG ≠ LogLevel.INFO := by
  exact ⟨rfl, rfl, rfl, rfl, by decide⟩

/-- Claim C6 (amended): for a name not previously in the registry, after
`child name` succeeds, `getLogLevel name` returns the level configured for
that name in the startup per-logger mapping when one exists and the
configured default log level otherwise, provided the CLI state holds only
genuine levels (as every state `setArguments` produces does). -/
theorem child_new_logger_inherits_config (cli : LogLevelCliState)
    (s s2 : BunyanLoggerServer) (name : String) (hv : ValidCli cli)
    (hnew : s.loggers.lookup name = none) (hok : child s cli name = Except.ok s2) :
    getLogLevel s2 name = Except.ok ((cli.logLevels.lookup name).getD cli.defaultLogLevel) := by
  unfold child at hok
  by_cases h0 : name.length = 0
  · rw [if_pos h0] at hok
    cases hok
  rw [if_neg h0] at hok
  rw [hnew] at hok
  simp only [Option.isSome_none, Bool.false_eq_true, if_false] at hok
  cases hroot : s.loggers.lookup rootLoggerName with
  | none =>
      rw [hroot] at hok
      cases hok
  | some rootLvl =>
      rw [hroot] at hok
      cases hok
      unfold getLogLevel
      rw [lookup_append_of_eq_none _ _ _ hnew]
      have hb : (name == name) = true := beq_iff_eq.mpr rfl
      simp only [List.lookup, hb]
      unfold makeLoggerOptionsLevel
      cases hmap : cli.logLevels.lookup name with
      | none =>
          simp only [Option.getD]
          rw [toLogLevel_of_valid hv.1]
      | some level =>
          have hvl : ValidLevel level := hv.2 _ (mem_of_lookup_eq_some hmap)
          simp only [Option.getD]
          rw [toLogLevel_toBunyanLevel_of_valid hvl]

/-- Witness for C6 (amended): with the startup mapping `hello ↦ DEBUG` and
default INFO, creating the child "hello" yields DEBUG for "hello", while a
child "other" (not in the mapping) would inherit the default. -/
theorem child_new_logger_inherits_config_witness :
    getLogLevel { loggers := [("root", 30), ("hello", 20)], client := false } "hello" =
      Except.ok LogLevel.DEBUG := by
  have h := child_new_logger_inherits_config
    { logLevels := [("hello", LogLevel.DEBUG)], defaultLogLevel := LogLevel.INFO }
    (initServer { logLevels := [("hello", LogLevel.DEBUG)], defaultLogLevel := LogLevel.INFO })
    { loggers := [("root", 30), ("hello", 20)], client := false }
    "hello" (by decide) (by decide) rfl
  exact h

/-! ## QuickFileOpenService (file-search/src/browser/quick-file-open.ts)

The cancellation discipline of `onType`: the service holds one
`CancellationTokenSource` in `this.cancelIndicator`; each `onType` call
cancels it, replaces it with a fresh source, and captures the fresh token in
the result handler, which tests `token.isCancellationRequested` before
calling the acceptor.  Tokens are numbered in order of creation; the field
initializer creates token 0, and the n-th `onType` call creates token n. -/

/-- The token state of `QuickFileOpenService`: how many token sources exist,
which one `this.cancelIndicator` currently holds, and which are cancelled. -/
structure QuickFileOpenState where
  numTokens : Nat
  currentToken : Nat
  cancelled : List Nat
deriving DecidableEq, Repr

/-- The state after the field initializer `new CancellationTokenSource()`. -/
def initialQuickOpenState : QuickFileOpenState :=
  { numTokens := 1, currentToken := 0, cancelled := [] }

/-- The token bookkeeping at the head of `onType`:
`this.cancelIndicator.cancel()` then
`this.cancelIndicator = new CancellationTokenSource()`.  The previous
current token is cancelled synchronously before the new request is issued. -/
def onTypeStart (s : QuickFileOpenState) : QuickFileOpenState :=
  { numTokens := s.numTokens + 1,
    currentToken := s.numTokens,
    cancelled := s.currentToken :: s.cancelled }

/-- The token state after `n` keystrokes (calls to `onType`). -/
def stateAfter : Nat → QuickFileOpenState
  | 0 => initialQuickOpenState
  | n + 1 => onTypeStart (stateAfter n)

/-- `token.isCancellationRequested`, read at delivery time against the
session's captured token. -/
def isCancellationRequested (s : QuickFileOpenState) (token : Nat) : Bool :=
  token ∈ s.cancelled

/-- `root.withPath(root.path.join(p)).toString()`.  The URI library is part
of the host framework; joining is modelled as path concatenation, which no
claim depends on. -/
def joinPath (rootUri p : String) : String := rootUri ++ "/" ++ p

/-- `proposed.add(uri)`: a JavaScript `Set` keeps insertion order and
suppresses duplicates. -/
def addProposed (proposed : List String) (uri : String) : List String :=
  if uri ∈ proposed then proposed else proposed ++ [uri]

/-- The result handler of `onType`, run when a search batch resolves: when
the session's token is not cancelled, the batch's paths are joined to the
root, deduplicated into the session's `proposed` set, and the whole set is
handed to the acceptor (`some uris`); when the token is cancelled the
acceptor is not called (`none`). -/
def handleResult (s : QuickFileOpenState) (token : Nat) (rootUri : String)
    (proposed : List String) (result : List String) : Option (List String) :=
  if isCancellationRequested s token then none
  else some (result.foldl (fun acc p => addProposed acc (joinPath rootUri p)) proposed)

lemma stateAfter_numTokens (n : Nat) : (stateAfter n).numTokens = n + 1 := by
  induction n with
  | zero => rfl
  | succ n ih => simp [stateAfter, onTypeStart, ih]

lemma stateAfter_currentToken (n : Nat) : (stateAfter n).currentToken = n := by
  cases n with
  | zero => rfl
  | succ n => simp [stateAfter, onTypeStart, stateAfter_numTokens]

lemma mem_cancelled_stateAfter (n m : Nat) : n ∈ (stateAfter m).cancelled ↔ n < m := by
  induction m with
  | zero =>
      simp [stateAfter, initialQuickOpenState]
  | succ m ih =>
      simp only [stateAfter, onTypeStart, List.mem_cons, stateAfter_currentToken, ih]
      omega

/-- Claim C3: a search session superseded by a later `onType` call never
reaches the acceptor: once session `n`'s token has been cancelled by the
start of any later session (state after `m > n` keystrokes), its late batch
is dropped by the delivery-time token check, while the current session `m`
itself still delivers.  -/
theorem superseded_session_never_delivered (n m : Nat) (rootUri : String)
    (proposed result : List String) (h : n < m) :
    handleResult (stateAfter m) n rootUri proposed result = none ∧
    handleResult (stateAfter m) ((stateAfter m).currentToken) rootUri proposed result =
      some (result.foldl (fun acc p => addProposed acc (joinPath rootUri p)) proposed) := by
  constructor
  · unfold handleResult
    have : isCancellationRequested (stateAfter m) n = true := by
      simp [isCancellationRequested, mem_cancelled_stateAfter, h]
    rw [this]
    rfl
  · unfold handleResult
    have : isCancellationRequested (stateAfter m) ((stateAfter m).currentToken) = false := by
      simp [isCancellationRequested, stateAfter_currentToken, mem_cancelled_stateAfter]
    rw [this]
    rfl

/-- Witness for C3: after the second keystroke, session 1's batch is
dropped while session 2's identical batch is delivered (deduplicated and
joined to the workspace root). -/
theorem superseded_session_never_delivered_witness :
    handleResult (stateAfter 2) 1 "file:///ws" [] ["a.ts", "b.ts", "a.ts"] = none ∧
    handleResult (stateAfter 2) 2 "file:///ws" [] ["a.ts", "b.ts", "a.ts"] =
      some ["file:///ws/a.ts", "file:///ws/b.ts"] := by
  have h := superseded_session_never_delivered 1 2 "file:///ws" [] ["a.ts", "b.ts", "a.ts"]
    (by decide)
  refine ⟨h.1, ?_⟩
  have h2 := h.2
  rw [stateAfter_currentToken] at h2
  rw [h2]
  rfl

/-! ## DocumentWatcher (editorconfig document-watcher.ts)

The editorconfig adapter reads a `KnownProps` rule set and mutates the open
Monaco text model.  Property values are JavaScript values: strings, numbers,
booleans or `undefined`; `isSet` applies JavaScript truthiness.  Each
`ensure*` method is embedded as the list of editor mutations it requests;
an interpreter applies them to a model state, so that both "which mutations
were triggered" (the trace) and the resulting buffer are observable. -/

/-- A JavaScript value of an editorconfig property. -/
inductive PropValue where
  | str (s : String)
  | num (n : Int)
  | bool (b : Bool)
  | undef
deriving DecidableEq, Repr

/-- JavaScript truthiness of a property value: `false`, `0`, the empty
string and `undefined` are falsy. -/
def truthy : PropValue → Bool
  | .str s => s ≠ ""
  | .num n => n ≠ 0
  | .bool b => b
  | .undef => false

/-- The `KnownProps` rule set resolved for a file. -/
structure KnownProps where
  indent_style : PropValue := .undef
  indent_size : PropValue := .undef
  tab_width : PropValue := .undef
  end_of_line : PropValue := .undef
  trim_trailing_whitespace : PropValue := .undef
  insert_final_newline : PropValue := .undef
deriving DecidableEq, Repr

/-- `DocumentWatcher.isSet`: false for any falsy value and for the string
"unset", true otherwise. -/
def isSet (property : PropValue) : Bool :=
  if truthy property = false || property = .str "unset" then false else true

/-- `monaco.editor.EndOfLineSequence`. -/
inductive EndOfLineSequence where
  | LF
  | CRLF
deriving DecidableEq, Repr

/-- A cursor position, `editor.cursor`. -/
structure Position where
  line : Nat
  column : Nat
deriving DecidableEq, Repr

/-- The observable state of the Monaco editor model the watcher touches:
the buffer as lines, the two text-model options it updates, the configured
end-of-line sequence, the cursor, and whether this editor is the manager's
current editor (read by `ensureTrimTrailingWhitespace`). -/
structure MonacoModel where
  lines : List String
  insertSpaces : Bool
  tabSize : Int
  eol : EndOfLineSequence
  cursor : Position
  isCurrentEditor : Bool
deriving DecidableEq, Repr

/-- One editor mutation requested by the watcher. -/
inductive EditorAction where
  | updateInsertSpaces (b : Bool)
  | updateTabSize (n : Int)
  | setEOL (e : EndOfLineSequence)
  | execTrimWhitespaceCommand
  | applyEdit (line col : Nat) (text : String)
  | setCursor (p : Position)
deriving DecidableEq, Repr

/-- `LINE_ENDING.LF`. -/
def LINE_ENDING_LF : String := "\n"

/-- `LINE_ENDING.CRLF`. -/
def LINE_ENDING_CRLF : String := "\r\n"

/-- The first `n` characters of a string (JavaScript string indexing is by
code unit; Monaco columns are 1-based offsets into the line). -/
def strTake (s : String) (n : Nat) : String := ⟨s.data.take n⟩

/-- The characters of a string from position `n` on. -/
def strDrop (s : String) (n : Nat) : String := ⟨s.data.drop n⟩

/-- Dropping a maximal trailing run of characters satisfying `p`. -/
def dropTrailingWhile (p : Char → Bool) : List Char → List Char
  | [] => []
  | c :: cs =>
      let rest := dropTrailingWhile p cs
      if rest.isEmpty && p c then [] else c :: rest

/-- JavaScript `String.prototype.trimRight`: remove trailing whitespace. -/
def jsTrimRight (s : String) : String := ⟨dropTrailingWhile Char.isWhitespace s.data⟩

/-- Splicing the inserted text into a line at a 1-based column.  The only
texts the watcher inserts are the two line endings, which Monaco reads as a
single line break splitting the line in two. -/
def insertIntoLine (s : String) (col : Nat) (text : String) : List String :=
  if text = LINE_ENDING_LF ∨ text = LINE_ENDING_CRLF then
    [strTake s (col - 1), strDrop s (col - 1)]
  else
    [⟨(strTake s (col - 1)).data ++ text.data ++ (strDrop s (col - 1)).data⟩]

/-- Replacing the 1-based line `idx` of a buffer by the given lines. -/
def setLine (lines : List String) (idx : Nat) (repl : List String) : List String :=
  lines.take (idx - 1) ++ repl ++ lines.drop idx

/-- Applying one editor action to the model.  `mv` is the (arbitrary)
cursor movement Monaco performs on `applyEdits`; the trim command's effect
lives in the host editor, outside these files, so it leaves the modelled
state unchanged and is observable in the trace only. -/
def applyAction (mv : Nat → Nat → String → Position → Position) (doc : MonacoModel) :
    EditorAction → MonacoModel
  | .updateInsertSpaces b => { doc with insertSpaces := b }
  | .updateTabSize n => { doc with tabSize := n }
  | .setEOL e => { doc with eol := e }
  | .execTrimWhitespaceCommand => doc
  | .applyEdit line col text =>
      { doc with
        lines := setLine doc.lines line (insertIntoLine (doc.lines.getD (line - 1) "") col text),
        cursor := mv line col text doc.cursor }
  | .setCursor p => { doc with cursor := p }

/-- Running a list of editor actions in order. -/
def runActions (mv : Nat → Nat → String → Position → Position) (doc : MonacoModel)
    (as : List EditorAction) : MonacoModel :=
  as.foldl (applyAction mv) doc

/-- `DocumentWatcher.ensureIndentStyle`. -/
def ensureIndentStyle (properties : KnownProps) : List EditorAction :=
  if properties.indent_style = .str "space" then [.updateInsertSpaces true]
  else if properties.indent_style = .str "tab" then [.updateInsertSpaces false]
  else []

/-- `DocumentWatcher.ensureTabWidth`. -/
def ensureTabWidth (properties : KnownProps) : List EditorAction :=
  match properties.tab_width with
  | .num n => [.updateTabSize n]
  | _ => []

/-- `DocumentWatcher.ensureIndentSize`: "tab" defers to `tab_width` when
that is set; a numeric value updates the tab size directly. -/
def ensureIndentSize (properties : KnownProps) : List EditorAction :=
  if properties.indent_size = .str "tab" then
    if isSet properties.tab_width then ensureTabWidth properties else []
  else
    match properties.indent_size with
    | .num n => [.updateTabSize n]
    | _ => []

/-- `DocumentWatcher.ensureEndOfLine`. -/
def ensureEndOfLine (properties : KnownProps) : List EditorAction :=
  if properties.end_of_line = .str "lf" then [.setEOL .LF]
  else if properties.end_of_line = .str "crlf" then [.setEOL .CRLF]
  else []

/-- `DocumentWatcher.ensureTrimTrailingWhitespace`: dispatch the Monaco
trim command, only when the rule's value is exactly `true` and this editor
is the current editor. -/
def ensureTrimTrailingWhitespace (properties : KnownProps) (doc : MonacoModel) :
    List EditorAction :=
  if properties.trim_trailing_whitespace = .bool true then
    if doc.isCurrentEditor then [.execTrimWhitespaceCommand] else []
  else []

/-- `DocumentWatcher.ensureEndsWithNewLine`: when the rule's value is
exactly `true`, read the last line, trim it locally when the trim rule is
also `true`, and when the resulting content is non-empty insert the
configured line ending right after it, remembering and restoring the cursor
around the edit. -/
def ensureEndsWithNewLine (properties : KnownProps) (doc : MonacoModel) :
    List EditorAction :=
  if properties.insert_final_newline = .bool true then
    let lines := doc.lines.length
    let lineContent0 := doc.lines.getLastD ""
    let lineContent :=
      if properties.trim_trailing_whitespace = .bool true then jsTrimRight lineContent0
      else lineContent0
    let lineEnding :=
      if properties.end_of_line = .str "crlf" then LINE_ENDING_CRLF else LINE_ENDING_LF
    if lineContent ≠ "" then
      [.applyEdit lines (lineContent.length + 1) lineEnding, .setCursor doc.cursor]
    else []
  else []

/-- `DocumentWatcher.applyProperties`: the five guarded `ensure*` calls in
source order, each executed against the state left by the previous ones.
Returns the final model and the full trace of requested mutations. -/
def applyProperties (mv : Nat → Nat → String → Position → Position)
    (properties : KnownProps) (doc : MonacoModel) : MonacoModel × List EditorAction :=
  let a1 := if isSet properties.indent_style then ensureIndentStyle properties else []
  let d1 := runActions mv doc a1
  let a2 := if isSet properties.indent_size then ensureIndentSize properties else []
  let d2 := runActions mv d1 a2
  let a3 := if isSet properties.end_of_line then ensureEndOfLine properties else []
  let d3 := runActions mv d2 a3
  let a4 := if isSet properties.trim_trailing_whitespace then
      ensureTrimTrailingWhitespace properties d3 else []
  let d4 := runActions mv d3 a4
  let a5 := if isSet properties.insert_final_newline then
      ensureEndsWithNewLine properties d4 else []
  let d5 := runActions mv d4 a5
  (d5, a1 ++ a2 ++ a3 ++ a4 ++ a5)

/-- The `onWillSaveModel` handler installed by `addOnSaveHandler`: just
before saving, re-apply only the trim-trailing-whitespace and
insert-final-newline rules, in that order, from the cached rule set. -/
def onWillSaveModelHandler (mv : Nat → Nat → String → Position → Position)
    (properties : KnownProps) (doc : MonacoModel) : MonacoModel × List EditorAction :=
  let a1 := if isSet properties.trim_trailing_whitespace then
      ensureTrimTrailingWhitespace properties doc else []
  let d1 := runActions mv doc a1
  let a2 := if isSet properties.insert_final_newline then
      ensureEndsWithNewLine properties d1 else []
  (runActions mv d1 a2, a1 ++ a2)

/-! ## Claim theorems: the "unset" sentinel and falsy values (C4, C10) -/

/-- Claim C4: a property valued "unset" triggers no editor mutation and
suppresses nothing else: for each of the five applied properties, when its
value is the string "unset" the whole of `applyProperties` (final state and
mutation trace alike) is the same as if that property were absent
altogether, leaving every other property's effect intact. -/
theorem applyProperties_unset_suppression
    (mv : Nat → Nat → String → Position → Position) (properties : KnownProps)
    (doc : MonacoModel) :
    (properties.indent_style = .str "unset" →
      applyProperties mv properties doc =
        applyProperties mv { properties with indent_style := .undef } doc) ∧
    (properties.indent_size = .str "unset" →
      applyProperties mv properties doc =
        applyProperties mv { properties with indent_size := .undef } doc) ∧
    (properties.tab_width = .str "unset" →
      applyProperties mv properties doc =
        applyProperties mv { properties with tab_width := .undef } doc) ∧
    (properties.end_of_line = .str "unset" →
      applyProperties mv properties doc =
        applyProperties mv { properties with end_of_line := .undef } doc) ∧
    (properties.trim_trailing_whitespace = .str "unset" →
      applyProperties mv properties doc =
        applyProperties mv { properties with trim_trailing_whitespace := .undef } doc) ∧
    (properties.insert_final_newline = .str "unset" →
      applyProperties mv properties doc =
        applyProperties mv { properties with insert_final_newline := .undef } doc) := by
  refine ⟨?_, ?_, ?_, ?_, ?_, ?_⟩ <;> intro h <;>
    simp +decide [applyProperties, ensureIndentStyle, ensureIndentSize, ensureTabWidth,
      ensureEndOfLine, ensureTrimTrailingWhitespace, ensureEndsWithNewLine, isSet, truthy, h]

/-- Claim C10: every falsy property value (false, 0, the empty string,
undefined) fails `isSet`; `isSet` holds exactly for truthy values other
than the string "unset"; and a boolean rule explicitly set to `false`
behaves exactly like an absent rule, both on open (`applyProperties`) and
at save time (`onWillSaveModelHandler`), so it triggers no editor
mutation. -/
theorem falsy_rule_never_triggers :
    (∀ p : PropValue, truthy p = false → isSet p = false) ∧
    (isSet (.bool false) = false ∧ isSet (.num 0) = false ∧
      isSet (.str "") = false ∧ isSet .undef = false) ∧
    (∀ p : PropValue, isSet p = true ↔ (truthy p = true ∧ p ≠ .str "unset")) ∧
    (∀ (mv : Nat → Nat → String → Position → Position) (properties : KnownProps)
        (doc : MonacoModel), properties.trim_trailing_whitespace = .bool false →
      applyProperties mv properties doc =
          applyProperties mv { properties with trim_trailing_whitespace := .undef } doc ∧
      onWillSaveModelHandler mv properties doc =
          onWillSaveModelHandler mv { properties with trim_trailing_whitespace := .undef } doc) ∧
    (∀ (mv : Nat → Nat → String → Position → Position) (properties : KnownProps)
        (doc : MonacoModel), properties.insert_final_newline = .bool false →
      applyProperties mv properties doc =
          applyProperties mv { properties with insert_final_newline := .undef } doc ∧
      onWillSaveModelHandler mv properties doc =
          onWillSaveModelHandler mv { properties with insert_final_newline := .undef } doc) := by
  refine ⟨?_, by decide, ?_, ?_, ?_⟩
  · intro p h
    simp [isSet, h]
  · intro p
    unfold isSet
    by_cases hu : p = .str "unset"
    · subst hu
      simp
    · by_cases ht : truthy p = true
      · simp [ht, hu]
      · simp only [Bool.not_eq_true] at ht
        simp [ht, hu]
  · intro mv properties doc h
    constructor <;>
      simp +decide [applyProperties, onWillSaveModelHandler, ensureIndentStyle,
        ensureIndentSize, ensureTabWidth, ensureEndOfLine, ensureTrimTrailingWhitespace,
        ensureEndsWithNewLine, isSet, truthy, h]
  · intro mv properties doc h
    constructor <;>
      simp +decide [applyProperties, onWillSaveModelHandler, ensureIndentStyle,
        ensureIndentSize, ensureTabWidth, ensureEndOfLine, ensureTrimTrailingWhitespace,
        ensureEndsWithNewLine, isSet, truthy, h]

/-! ## Claim theorems: insert-final-newline at save time (C9) -/

/-- The last-line content `ensureEndsWithNewLine` operates on: the buffer's
last line, trimmed of trailing whitespace when the trim rule is also
exactly `true`. -/
def saveTimeLastLineContent (properties : KnownProps) (doc : MonacoModel) : String :=
  if properties.trim_trailing_whitespace = .bool true then jsTrimRight (doc.lines.getLastD "")
  else doc.lines.getLastD ""

lemma take_length_dropTrailingWhile (p : Char → Bool) (l : List Char) :
    l.take (dropTrailingWhile p l).length = dropTrailingWhile p l := by
  induction l with
  | nil => rfl
  | cons c cs ih =>
      simp only [dropTrailingWhile]
      by_cases hc : (dropTrailingWhile p cs).isEmpty && p c
      · rw [if_pos hc]
        rfl
      · rw [if_neg hc]
        rw [List.length_cons, List.take_succ_cons, ih]

lemma strTake_saveTimeLastLineContent (properties : KnownProps) (doc : MonacoModel) :
    strTake (doc.lines.getLastD "") (saveTimeLastLineContent properties doc).length =
      saveTimeLastLineContent properties doc := by
  unfold saveTimeLastLineContent
  by_cases ht : properties.trim_trailing_whitespace = .bool true
  · rw [if_pos ht]
    unfold strTake jsTrimRight String.length
    cases hlast : doc.lines.getLastD "" with
    | mk data =>
        exact congrArg String.mk (take_length_dropTrailingWhile Char.isWhitespace data)
  · rw [if_neg ht]
    unfold strTake String.length
    cases doc.lines.getLastD "" with
    | mk data => exact congrArg String.mk (List.take_length data)

lemma getD_length_sub_one_eq_getLastD (l : List String) :
    l.getD (l.length - 1) "" = l.getLastD "" := by
  induction l with
  | nil => rfl
  | cons x xs ih =>
      cases xs with
      | nil => rfl
      | cons y ys =>
          have h1 : (x :: y :: ys).length - 1 = (y :: ys).length - 1 + 1 := by
            simp
          rw [h1, List.getD_cons_succ, ih]
          simp [List.getLastD_cons]

lemma getLastD_ne_empty_nonnil {l : List String} (h : l.getLastD "" ≠ "") : l ≠ [] := by
  intro habs
  subst habs
  exact h rfl

lemma saveTimeLastLineContent_empty_of_nil (properties : KnownProps) (doc : MonacoModel)
    (h : doc.lines = []) : saveTimeLastLineContent properties doc = "" := by
  unfold saveTimeLastLineContent
  rw [h]
  by_cases ht : properties.trim_trailing_whitespace = .bool true
  · rw [if_pos ht]
    rfl
  · rw [if_neg ht]
    rfl

/-- With the insert-final-newline rule exactly `true`, the actions of
`ensureEndsWithNewLine` are precisely: nothing when the (possibly trimmed)
last-line content is empty, and otherwise the insertion of the configured
line ending right after that content followed by the cursor restore. -/
lemma ensureEndsWithNewLine_eq (properties : KnownProps) (doc : MonacoModel)
    (h : properties.insert_final_newline = PropValue.bool true) :
    ensureEndsWithNewLine properties doc =
      if saveTimeLastLineContent properties doc = "" then []
      else
        [EditorAction.applyEdit doc.lines.length
            ((saveTimeLastLineContent properties doc).length + 1)
            (if properties.end_of_line = PropValue.str "crlf" then LINE_ENDING_CRLF
             else LINE_ENDING_LF),
         EditorAction.setCursor doc.cursor] := by
  unfold ensureEndsWithNewLine saveTimeLastLineContent
  rw [h]
  simp only [reduceIte, ne_eq, ite_not]

/-- Claim C9: with the insert-final-newline rule active (value `true`) at
save time, the relevant last-line content is the last line trimmed of
trailing whitespace exactly when the trim rule is also active; when that
content is empty no edit happens; when it is non-empty, the single edit
inserts CRLF when `end_of_line` is "crlf" and LF otherwise, directly after
the trimmed content of the last line (any not-yet-trimmed whitespace
remainder ends up after the inserted break), and the cursor position is
restored across the edit whatever cursor movement the edit itself causes;
in the pre-save handler the trim command is dispatched before the
final-newline edit. -/
theorem insert_final_newline_behavior
    (mv : Nat → Nat → String → Position → Position) (properties : KnownProps)
    (doc : MonacoModel) (h : properties.insert_final_newline = PropValue.bool true) :
    (saveTimeLastLineContent properties doc = "" →
        ensureEndsWithNewLine properties doc = [] ∧
        runActions mv doc (ensureEndsWithNewLine properties doc) = doc) ∧
    (saveTimeLastLineContent properties doc ≠ "" →
        ensureEndsWithNewLine properties doc =
          [EditorAction.applyEdit doc.lines.length
              ((saveTimeLastLineContent properties doc).length + 1)
              (if properties.end_of_line = PropValue.str "crlf" then LINE_ENDING_CRLF
               else LINE_ENDING_LF),
           EditorAction.setCursor doc.cursor] ∧
        (runActions mv doc (ensureEndsWithNewLine properties doc)).lines =
          doc.lines.dropLast ++
            [saveTimeLastLineContent properties doc,
             strDrop (doc.lines.getLastD "") (saveTimeLastLineContent properties doc).length] ∧
        (runActions mv doc (ensureEndsWithNewLine properties doc)).cursor = doc.cursor) ∧
    (properties.trim_trailing_whitespace = PropValue.bool true → doc.isCurrentEditor = true →
        (onWillSaveModelHandler mv properties doc).2 =
          EditorAction.execTrimWhitespaceCommand :: ensureEndsWithNewLine properties doc) := by
  rw [ensureEndsWithNewLine_eq properties doc h]
  refine ⟨?_, ?_, ?_⟩
  · intro hempty
    rw [if_pos hempty]
    exact ⟨rfl, rfl⟩
  · intro hne
    rw [if_neg hne]
    refine ⟨rfl, ?_, ?_⟩
    · have hnil : doc.lines ≠ [] := by
        intro habs
        exact hne (saveTimeLastLineContent_empty_of_nil properties doc habs)
      simp only [runActions, List.foldl, applyAction]
      rw [getD_length_sub_one_eq_getLastD]
      unfold insertIntoLine
      rw [if_pos (by
        by_cases hcrlf : properties.end_of_line = PropValue.str "crlf"
        · rw [if_pos hcrlf]
          right
          rfl
        · rw [if_neg hcrlf]
          left
          rfl)]
      rw [Nat.add_sub_cancel, strTake_saveTimeLastLineContent]
      unfold setLine
      rw [List.drop_length, ← List.dropLast_eq_take, List.append_nil]
    · simp only [runActions, List.foldl, applyAction]
  · intro htrim hcur
    have hset : isSet properties.trim_trailing_whitespace = true := by
      rw [htrim]
      decide
    have hset2 : isSet properties.insert_final_newline = true := by
      rw [h]
      decide
    have htrimacts : ensureTrimTrailingWhitespace properties doc =
        [EditorAction.execTrimWhitespaceCommand] := by
      unfold ensureTrimTrailingWhitespace
      rw [htrim, hcur]
      simp
    unfold onWillSaveModelHandler
    simp only [hset, hset2, if_true, htrimacts]
    have hd1 : runActions mv doc [EditorAction.execTrimWhitespaceCommand] = doc := rfl
    rw [hd1, ensureEndsWithNewLine_eq properties doc h]
    rfl

/-- Witness for C9: a two-line buffer whose last line is "xyz" followed by
trailing spaces, with trim and insert-final-newline both `true` and
end_of_line "crlf": the CRLF is inserted right after "xyz", the trailing
spaces move to the new final line, and the cursor comes back even though
the edit's own cursor movement (here modelled as a jump) moved it. -/
theorem insert_final_newline_behavior_witness :
    (runActions (fun _ _ _ _ => { line := 99, column := 99 })
        { lines := ["abc", "xyz  "], insertSpaces := false, tabSize := 4,
          eol := .LF, cursor := { line := 1, column := 2 }, isCurrentEditor := true }
        (ensureEndsWithNewLine
          { indent_style := .undef, indent_size := .undef, tab_width := .undef,
            end_of_line := .str "crlf", trim_trailing_whitespace := .bool true,
            insert_final_newline := .bool true }
          { lines := ["abc", "xyz  "], insertSpaces := false, tabSize := 4,
            eol := .LF, cursor := { line := 1, column := 2 }, isCurrentEditor := true })).lines =
      ["abc", "xyz", "  "] ∧
    (runActions (fun _ _ _ _ => { line := 99, column := 99 })
        { lines := ["abc", "xyz  "], insertSpaces := false, tabSize := 4,
          eol := .LF, cursor := { line := 1, column := 2 }, isCurrentEditor := true }
        (ensureEndsWithNewLine
          { indent_style := .undef, indent_size := .undef, tab_width := .undef,
            end_of_line := .str "crlf", trim_trailing_whitespace := .bool true,
            insert_final_newline := .bool true }
          { lines := ["abc", "xyz  "], insertSpaces := false, tabSize := 4,
            eol := .LF, cursor := { line := 1, column := 2 }, isCurrentEditor := true })).cursor =
      { line := 1, column := 2 } := by
  have h := insert_final_newline_behavior (fun _ _ _ _ => { line := 99, column := 99 })
    { indent_style := .undef, indent_size := .undef, tab_width := .undef,
      end_of_line := .str "crlf", trim_trailing_whitespace := .bool true,
      insert_final_newline := .bool true }
    { lines := ["abc", "xyz  "], insertSpaces := false, tabSize := 4,
      eol := .LF, cursor := { line := 1, column := 2 }, isCurrentEditor := true }
    rfl
  have h2 := h.2.1 (by decide)
  refine ⟨?_, h2.2.2⟩
  rw [h2.2.1]
  decide

end Theia
